import Mathlib

/-!
Verification of the video-renderer job pipeline (src/server.js).

The development shallowly embeds the core of the server: the JavaScript
values that flow through clip validation, the filter-graph compiler built
in processJob, the job store with its patch-merge setJob, the status
trace produced by processJob, and the three HTTP handlers (submit,
status, download).  Filter stages are kept as a structured builder (one
constructor per textual stage pushed into filterParts); each constructor
documents the exact ffmpeg text it stands for.
-/

namespace VideoRenderer

instance {ε α : Type} [DecidableEq ε] [DecidableEq α] : DecidableEq (Except ε α) := fun x y =>
  match x, y with
  | .ok a, .ok b =>
      if h : a = b then .isTrue (by rw [h]) else .isFalse (by intro hc; cases hc; exact h rfl)
  | .error a, .error b =>
      if h : a = b then .isTrue (by rw [h]) else .isFalse (by intro hc; cases hc; exact h rfl)
  | .ok _, .error _ => .isFalse (by intro hc; cases hc)
  | .error _, .ok _ => .isFalse (by intro hc; cases hc)

/-- Model of the JavaScript values reaching the core: a finite number
(exact value as a rational), NaN, the two infinities, undefined (an
absent property), or a string (standing for any non-number value a JSON
payload can carry where only numbers are expected). -/
inductive JSVal where
  | num (x : ℚ)
  | nan
  | posInf
  | negInf
  | undef
  | str (s : String)
deriving DecidableEq

/-- JavaScript truthiness of a modelled value: 0, NaN, undefined and the
empty string are falsy; every other modelled value is truthy. -/
def truthy : JSVal → Bool
  | .num x => x ≠ 0
  | .nan => false
  | .posInf => true
  | .negInf => true
  | .undef => false
  | .str s => s ≠ ""

/-- JavaScript a || b on modelled values. -/
def jsOr (a b : JSVal) : JSVal :=
  if truthy a then a else b

/-- JavaScript <= restricted to the values that can reach the comparison
in processJob.  Both operands have passed requireNumber there, so they
are finite numbers or infinities; comparisons involving NaN or undefined
are false as in JavaScript.  String operands never reach this comparison
(requireNumber throws on them first), and are mapped to false. -/
def jsLe : JSVal → JSVal → Bool
  | .num a, .num b => a ≤ b
  | .num _, .posInf => true
  | .num _, .negInf => false
  | .posInf, .num _ => false
  | .posInf, .posInf => true
  | .posInf, .negInf => false
  | .negInf, .num _ => true
  | .negInf, .posInf => true
  | .negInf, .negInf => true
  | .nan, _ => false
  | _, .nan => false
  | .undef, _ => false
  | _, .undef => false
  | .str _, _ => false
  | _, .str _ => false

/-- Embedding of requireNumber (src/server.js line 148): throws when the
value is not of type number (undefined, string) or is NaN.  Infinities
are of type number and are not NaN, so they pass. -/
def requireNumber (v : JSVal) (name : String) : Except String Unit :=
  match v with
  | .num _ => .ok ()
  | .posInf => .ok ()
  | .negInf => .ok ()
  | _ => .error (name ++ " must be a number")

/-- Values accepted by requireNumber. -/
def passesRequireNumber : JSVal → Bool
  | .num _ => true
  | .posInf => true
  | .negInf => true
  | _ => false

/-- A finite JS number (the spec speaks of finite numbers). -/
def isFiniteNumber : JSVal → Bool
  | .num _ => true
  | _ => false

/-- One clip of the request payload: start and stop fields, named start
and end in the source. -/
structure Clip where
  start : JSVal
  «end» : JSVal
deriving DecidableEq

/-- Structured form of one part pushed into filterParts.  Each
constructor records exactly the text processJob builds:

trimV i s e pts stands for the string
  [0:v]trim=start=s:end=e,setpts=pts[v i]     (source line 85),
trimA i s e pts for
  [0:a]atrim=start=s:end=e,asetpts=pts[a i]   (source line 86),
concat inputs n v a out for
  inputs…concat=n=n:v=v:a=a[out]              (source lines 94 and 95),
scalePadFps inp w h aspect padX padY fps out for
  [inp]scale=w:h:force_original_aspect_ratio=aspect,pad=w:h:padX:padY,fps=fps[out]
                                              (source lines 101 and 102). -/
inductive FilterStage where
  | trimV (i : Nat) (s e : JSVal) (pts : String)
  | trimA (i : Nat) (s e : JSVal) (pts : String)
  | concat (inputs : List String) (n v a : Nat) (out : String)
  | scalePadFps (inp : String) (w h : JSVal) (aspect padX padY : String) (fps : JSVal) (out : String)
deriving DecidableEq

/-- Textual label v{i} of the i-th video trim output. -/
def vLabel (i : Nat) : String := "v" ++ toString i

/-- Textual label a{i} of the i-th audio trim output. -/
def aLabel (i : Nat) : String := "a" ++ toString i

/-- Output label of a stage. -/
def stageOut : FilterStage → String
  | .trimV i _ _ _ => vLabel i
  | .trimA i _ _ _ => aLabel i
  | .concat _ _ _ _ out => out
  | .scalePadFps _ _ _ _ _ _ _ out => out

/-- Input labels a stage reads. -/
def stageReads : FilterStage → List String
  | .trimV _ _ _ _ => ["0:v"]
  | .trimA _ _ _ _ => ["0:a"]
  | .concat inputs _ _ _ _ => inputs
  | .scalePadFps inp _ _ _ _ _ _ _ => [inp]

def isTrimV : FilterStage → Bool
  | .trimV _ _ _ _ => true
  | _ => false

def isTrimA : FilterStage → Bool
  | .trimA _ _ _ _ => true
  | _ => false

def isConcat : FilterStage → Bool
  | .concat _ _ _ _ _ => true
  | _ => false

def isScalePadFps : FilterStage → Bool
  | .scalePadFps _ _ _ _ _ _ _ _ => true
  | _ => false

/-- The per-clip validation performed inside the forEach of processJob
(source lines 80 to 82): both bounds must pass requireNumber and the
comparison c.end <= c.start must be false. -/
def validateClip (c : Clip) : Except String Unit :=
  match requireNumber c.start ("clip.start") with
  | .error e => .error e
  | .ok _ =>
      match requireNumber c.«end» ("clip.end") with
      | .error e => .error e
      | .ok _ =>
          if jsLe c.«end» c.start then .error ("clip.end must be > clip.start")
          else .ok ()

/-- The two stages pushed for clip i (source lines 84 to 87). -/
def trimPair (i : Nat) (c : Clip) : List FilterStage :=
  [ .trimV i c.start c.«end» ("PTS-STARTPTS"),
    .trimA i c.start c.«end» ("PTS-STARTPTS") ]

/-- The forEach loop of processJob (source lines 79 to 88): validate
each clip in order and emit its trim pair; the first invalid clip
aborts the whole build with its error (the thrown exception discards
the partially filled filterParts array). -/
def buildTrims : List Clip → Nat → Except String (List FilterStage)
  | [], _ => .ok []
  | c :: rest, i =>
      match validateClip c with
      | .error e => .error e
      | .ok _ =>
          match buildTrims rest (i + 1) with
          | .error e => .error e
          | .ok tail => .ok (trimPair i c ++ tail)

/-- Pure shape of the trim stages of a valid clip list starting at
index i. -/
def trimsOf : List Clip → Nat → List FilterStage
  | [], _ => []
  | c :: rest, i => trimPair i c ++ trimsOf rest (i + 1)

/-- The single scale, pad and fps stage of the program (source lines 98
to 102): geometry defaults applied with JavaScript || to the raw width,
height and fps properties, aspect-preserving scale (decrease), centered
pad and the fps filter, from vout into vfinal. -/
def scaleStage (w h f : JSVal) : FilterStage :=
  .scalePadFps ("vout") (jsOr w (.num 1920)) (jsOr h (.num 1080))
    ("decrease") ("(ow-iw)/2") ("(oh-ih)/2") (jsOr f (.num 30)) ("vfinal")

/-- The filter-graph compiler inlined in processJob (source lines 78 to
102): trim pairs for every clip, the two concat stages (video-only with
v=1:a=0 into vout, audio-only with v=0:a=1 into aout, each with
n = clip count), then the single scale+pad+fps stage from vout to
vfinal. -/
def compileFilter (clips : List Clip) (w h f : JSVal) : Except String (List FilterStage) :=
  match buildTrims clips 0 with
  | .error e => .error e
  | .ok trims =>
      .ok (trims ++
        [ .concat ((List.range clips.length).map vLabel) clips.length 1 0 ("vout"),
          .concat ((List.range clips.length).map aLabel) clips.length 0 1 ("aout"),
          scaleStage w h f ])

/-- Boolean form of the per-clip validation passing. -/
def clipOk (c : Clip) : Bool :=
  match validateClip c with
  | .ok _ => true
  | .error _ => false

/-- A clip list is valid when every clip passes the per-clip validation. -/
def ValidClips (clips : List Clip) : Prop :=
  ∀ c ∈ clips, clipOk c = true

instance : DecidablePred ValidClips := fun clips =>
  inferInstanceAs (Decidable (∀ c ∈ clips, clipOk c = true))

/-- Job lifecycle states (the status strings of the source). -/
inductive Status where
  | queued
  | downloading
  | preparing
  | rendering
  | completed
  | failed
deriving DecidableEq

/-- A stored job record, with every property optional so that a record
holds exactly the properties the merges so far have written.  For file,
error and tmpDir the inner Option distinguishes a property set to null
(some none) from one set to a string. -/
structure JobRec where
  status : Option Status
  progress : Option ℚ
  file : Option (Option String)
  error : Option (Option String)
  tmpDir : Option (Option String)
deriving DecidableEq

/-- The empty object used by setJob when the id is unknown. -/
def emptyRec : JobRec := ⟨none, none, none, none, none⟩

/-- Property-wise merge with the right (patch) side winning, the
({...prev, ...patch}) of setJob (source line 133). -/
def mergeRec (prev patch : JobRec) : JobRec :=
  ⟨ patch.status.orElse (fun _ => prev.status),
    patch.progress.orElse (fun _ => prev.progress),
    patch.file.orElse (fun _ => prev.file),
    patch.error.orElse (fun _ => prev.error),
    patch.tmpDir.orElse (fun _ => prev.tmpDir) ⟩

/-- The in-memory job table, an association list keyed by job id. -/
def Store := List (String × JobRec)

/-- Lookup in the job table (jobs.get). -/
def getJob : Store → String → Option JobRec
  | [], _ => none
  | (k, v) :: rest, id => if k = id then some v else getJob rest id

/-- Insert or replace in the job table (jobs.set). -/
def putJob : Store → String → JobRec → Store
  | [], id, r => [(id, r)]
  | (k, v) :: rest, id, r =>
      if k = id then (id, r) :: rest else (k, v) :: putJob rest id r

/-- Embedding of setJob (source lines 131 to 134): merge the patch over
the existing record, or over the empty object when the id is unknown. -/
def setJob (st : Store) (id : String) (patch : JobRec) : Store :=
  putJob st id (mergeRec ((getJob st id).getD emptyRec) patch)

/-- The initial record written at submission (source line 35):
status queued, progress 0, file null, error null. -/
def initialJob : JobRec :=
  ⟨some .queued, some 0, some none, some none, none⟩

/-- Patch for the downloading phase (source line 69). -/
def patchDownloading : JobRec := ⟨some .downloading, some 5, none, none, none⟩

/-- Patch for the preparing phase (source line 75). -/
def patchPreparing : JobRec := ⟨some .preparing, some 12, none, none, none⟩

/-- Patch for the rendering phase (source line 105). -/
def patchRendering : JobRec := ⟨some .rendering, some 20, none, none, none⟩

/-- Patch for completion (source line 125): file and tmpDir set. -/
def patchCompleted (outPath tmp : String) : JobRec :=
  ⟨some .completed, some 100, some (some outPath), none, some (some tmp)⟩

/-- Patch written by the catch of processJob (source line 127). -/
def patchFailed (e : String) : JobRec :=
  ⟨some .failed, some 0, none, some (some e), none⟩

/-- String(err) of a thrown Error whose message is m. -/
def jsErrorString (m : String) : String := "Error: " ++ m

/-- Outcomes of the two external effects of a job run: the temp
directory made for it, the result of fetching the source (an error
carries the thrown message; mkdtemp failures are folded into it), and
the result of the ffmpeg invocation. -/
structure Env where
  tmpDir : String
  downloadResult : Except String Unit
  renderResult : Except String Unit

/-- The request payload as the core reads it: sourceUrl, the clips
property (none when it is not an array), and the three geometry
properties (undef when absent). -/
structure RenderRequest where
  sourceUrl : JSVal
  clips : Option (List Clip)
  width : JSVal
  height : JSVal
  fps : JSVal

/-- The sequence of setJob patches processJob applies, in order, as a
function of the external outcomes (source lines 67 to 129).  Every
throw inside the try lands in the catch, which writes the failed patch
with String(err); otherwise the phases advance downloading, preparing,
rendering, completed. -/
def processTrace (cfg : RenderRequest) (env : Env) : List JobRec :=
  patchDownloading ::
    match env.downloadResult with
    | .error e => [patchFailed (jsErrorString e)]
    | .ok _ =>
        patchPreparing ::
          match compileFilter (cfg.clips.getD []) cfg.width cfg.height cfg.fps with
          | .error e => [patchFailed (jsErrorString e)]
          | .ok _ =>
              patchRendering ::
                match env.renderResult with
                | .error e => [patchFailed (jsErrorString e)]
                | .ok _ => [patchCompleted (env.tmpDir ++ "/out.mp4") env.tmpDir]

/-- Embedding of processJob: apply every patch of the trace to the
store.  It is a total function: no exception leaves it. -/
def processJob (jobId : String) (cfg : RenderRequest) (env : Env) (st : Store) : Store :=
  (processTrace cfg env).foldl (fun s p => setJob s jobId p) st

/-- The statuses a job record passes through: the queued initial record
followed by every status a patch of the run writes. -/
def statusTrace (cfg : RenderRequest) (env : Env) : List Status :=
  (initialJob :: processTrace cfg env).filterMap (fun p => p.status)

/-- Truthiness of the file property as job.file reads it: a present,
non-null, non-empty path. -/
def fileTruthy : Option (Option String) → Bool
  | some (some s) => s ≠ ""
  | _ => false

/-- Response of the status endpoint (source lines 47 to 56): 404 with
an error body for an unknown id, otherwise a document with exactly the
four fields status, progress, downloadUrl, error. -/
inductive StatusResponse where
  | notFound (code : Nat) (error : String)
  | doc (status : Option Status) (progress : Option ℚ)
      (downloadUrl : Option String) (error : Option String)
deriving DecidableEq

/-- Embedding of the GET /render/:jobId handler. -/
def handleStatus (st : Store) (id : String) : StatusResponse :=
  match getJob st id with
  | none => .notFound 404 ("Not found")
  | some job =>
      .doc job.status job.progress
        (if fileTruthy job.file then some ("/download/" ++ id) else none)
        (job.error.getD none)

/-- Response of the download endpoint (source lines 59 to 63): a 404
with a plain body, or streaming the file as an attachment. -/
inductive DownloadResponse where
  | err (code : Nat) (body : String)
  | fileDownload (path : String) (filename : String)
deriving DecidableEq

/-- Embedding of the GET /download/:jobId handler: one guard covers
both an unknown id and a not-yet-set file, answering 404 Not ready;
otherwise the file streams as attachment export.mp4. -/
def handleDownload (st : Store) (id : String) : DownloadResponse :=
  match getJob st id with
  | none => .err 404 ("Not ready")
  | some job =>
      if fileTruthy job.file then
        .fileDownload ((job.file.getD none).getD "") ("export.mp4")
      else .err 404 ("Not ready")

/-- Result sent by the submission endpoint: 400 with an error body, or
the fresh job id. -/
inductive RenderResult where
  | badRequest (code : Nat) (error : String)
  | accepted (jobId : String)
deriving DecidableEq

/-- The submission-time validation of POST /render (source line 31):
falsy sourceUrl, clips not an array, or empty clips. -/
def invalidPayload (p : RenderRequest) : Bool :=
  !truthy p.sourceUrl || p.clips.isNone || decide (p.clips = some [])

/-- Embedding of the POST /render handler (source lines 26 to 44): on
invalid payload answer 400 and touch nothing; otherwise create the
queued record, enqueue the job and answer with its id. -/
def handleRender (jobId : String) (p : RenderRequest) (st : Store)
    (q : List (String × RenderRequest)) :
    RenderResult × Store × List (String × RenderRequest) :=
  if invalidPayload p then
    (.badRequest 400 ("Invalid payload. Need sourceUrl and non-empty clips[]"), st, q)
  else
    (.accepted jobId, putJob st jobId initialJob, q ++ [(jobId, p)])

/-- Success test for an Except value. -/
def exceptOk {ε α : Type} : Except ε α → Bool
  | .ok _ => true
  | .error _ => false

/-- The forward successor of each state in the lifecycle order. -/
def nextStatus : Status → Option Status
  | .queued => some .downloading
  | .downloading => some .preparing
  | .preparing => some .rendering
  | .rendering => some .completed
  | .completed => none
  | .failed => none

/-- Terminal states of the lifecycle. -/
def isTerminal : Status → Bool
  | .completed => true
  | .failed => true
  | _ => false

/-- A transition allowed by the state machine of the spec: the next
state in forward order, or failed from a non-terminal state. -/
def stepAllowed (a b : Status) : Prop :=
  nextStatus a = some b ∨ (b = .failed ∧ isTerminal a = false)

instance : ∀ a b, Decidable (stepAllowed a b) := fun a b =>
  inferInstanceAs (Decidable (nextStatus a = some b ∨ (b = .failed ∧ isTerminal a = false)))

/-- Left fold of patch merges over a record. -/
def mergeAll (r : JobRec) (ps : List JobRec) : JobRec :=
  ps.foldl mergeRec r

/-- The job records observable for a job between its creation and the
end of its run: the initial queued record followed by the merges of
every prefix of the patch trace. -/
def reachableRec (cfg : RenderRequest) (env : Env) (r : JobRec) : Prop :=
  r ∈ List.scanl mergeRec initialJob (processTrace cfg env)

instance (cfg : RenderRequest) (env : Env) (r : JobRec) :
    Decidable (reachableRec cfg env r) :=
  inferInstanceAs (Decidable (r ∈ List.scanl mergeRec initialJob (processTrace cfg env)))

/-- The property claim C1 asserts of a compiled program. -/
def C1Prop (clips : List Clip) (w h f : JSVal) : Prop :=
  ∃ prog, compileFilter clips w h f = .ok prog ∧
    prog = trimsOf clips 0 ++
      [ .concat ((List.range clips.length).map vLabel) clips.length 1 0 ("vout"),
        .concat ((List.range clips.length).map aLabel) clips.length 0 1 ("aout"),
        scaleStage w h f ] ∧
    List.countP isTrimV prog = clips.length ∧
    List.countP isTrimA prog = clips.length ∧
    (∀ i : Nat, ∀ hi : i < clips.length,
      List.count (.trimV i (clips.get ⟨i, hi⟩).start (clips.get ⟨i, hi⟩).«end» ("PTS-STARTPTS")) prog = 1 ∧
      List.count (.trimA i (clips.get ⟨i, hi⟩).start (clips.get ⟨i, hi⟩).«end» ("PTS-STARTPTS")) prog = 1) ∧
    List.count (.concat ((List.range clips.length).map vLabel) clips.length 1 0 ("vout")) prog = 1 ∧
    List.count (.concat ((List.range clips.length).map aLabel) clips.length 0 1 ("aout")) prog = 1 ∧
    List.countP isConcat prog = 2

/-- The property claim C5 asserts of a compiled program. -/
def C5Prop (clips : List Clip) (w h f : JSVal) : Prop :=
  ∃ prog, compileFilter clips w h f = .ok prog ∧
    prog = trimsOf clips 0 ++
      [ .concat ((List.range clips.length).map vLabel) clips.length 1 0 ("vout"),
        .concat ((List.range clips.length).map aLabel) clips.length 0 1 ("aout"),
        scaleStage w h f ] ∧
    List.countP isScalePadFps prog = 1 ∧
    prog.getLast? = some (scaleStage w h f) ∧
    stageReads (scaleStage w h f) = ["vout"] ∧
    stageOut (scaleStage w h f) = "vfinal" ∧
    scaleStage w h f =
      .scalePadFps ("vout") (jsOr w (.num 1920)) (jsOr h (.num 1080))
        ("decrease") ("(ow-iw)/2") ("(oh-ih)/2") (jsOr f (.num 30)) ("vfinal") ∧
    (w = .undef → jsOr w (.num 1920) = .num 1920) ∧
    (h = .undef → jsOr h (.num 1080) = .num 1080) ∧
    (f = .undef → jsOr f (.num 30) = .num 30)

lemma jsOr_falsy (a b : JSVal) (h : truthy a = false) : jsOr a b = b := by
  simp [jsOr, h]

lemma jsOr_undef (b : JSVal) : jsOr .undef b = b := rfl

lemma requireNumber_ok_iff (v : JSVal) (n : String) :
    requireNumber v n = .ok () ↔ passesRequireNumber v = true := by
  cases v <;> simp [requireNumber, passesRequireNumber]

lemma requireNumber_eq (v : JSVal) (n : String) :
    requireNumber v n =
      if passesRequireNumber v then .ok () else .error (n ++ " must be a number") := by
  cases v <;> simp [requireNumber, passesRequireNumber]

lemma clipOk_eq (c : Clip) :
    clipOk c =
      (passesRequireNumber c.start && passesRequireNumber c.«end» && !jsLe c.«end» c.start) := by
  unfold clipOk validateClip
  rw [requireNumber_eq, requireNumber_eq]
  cases hs : passesRequireNumber c.start <;>
    cases he : passesRequireNumber c.«end» <;>
    cases hle : jsLe c.«end» c.start <;> simp [hs, he, hle]

lemma clipOk_true_iff (c : Clip) : clipOk c = true ↔ validateClip c = .ok () := by
  unfold clipOk
  cases hv : validateClip c with
  | ok u => cases u; simp
  | error e => simp

lemma clipOk_false_error (c : Clip) (h : clipOk c = false) :
    ∃ m, validateClip c = .error m := by
  unfold clipOk at h
  cases hv : validateClip c with
  | ok u => rw [hv] at h; cases h
  | error e => exact ⟨e, rfl⟩

lemma clipOk_false_iff (c : Clip) :
    clipOk c = false ↔
      (passesRequireNumber c.start = false ∨ passesRequireNumber c.«end» = false ∨
        jsLe c.«end» c.start = true) := by
  rw [clipOk_eq]
  cases passesRequireNumber c.start <;> cases passesRequireNumber c.«end» <;>
    cases jsLe c.«end» c.start <;> simp

lemma buildTrims_ok (clips : List Clip) (hv : ValidClips clips) :
    ∀ k, buildTrims clips k = .ok (trimsOf clips k) := by
  induction clips with
  | nil => intro k; rfl
  | cons c rest ih =>
      intro k
      have hc : validateClip c = .ok () :=
        (clipOk_true_iff c).mp (hv c (List.mem_cons_self c rest))
      have hrest : ValidClips rest := fun x hx => hv x (List.mem_cons_of_mem c hx)
      simp [buildTrims, hc, ih hrest, trimsOf]

lemma buildTrims_error (clips : List Clip) (hbad : ∃ c ∈ clips, clipOk c = false) :
    ∀ k, ∃ m, buildTrims clips k = .error m := by
  induction clips with
  | nil => rcases hbad with ⟨c, hc, _⟩; cases hc
  | cons c rest ih =>
      intro k
      rcases hbad with ⟨c0, hc0, hbad0⟩
      rcases List.mem_cons.mp hc0 with hhead | htail
      · subst hhead
        rcases clipOk_false_error c0 hbad0 with ⟨m, hm⟩
        exact ⟨m, by simp [buildTrims, hm]⟩
      · cases hvc : validateClip c with
        | error e => exact ⟨e, by simp [buildTrims, hvc]⟩
        | ok u =>
            cases u
            rcases ih ⟨c0, htail, hbad0⟩ (k + 1) with ⟨m, hm⟩
            exact ⟨m, by simp [buildTrims, hvc, hm]⟩

lemma compileFilter_ok (clips : List Clip) (w h f : JSVal) (hv : ValidClips clips) :
    compileFilter clips w h f =
      .ok (trimsOf clips 0 ++
        [ .concat ((List.range clips.length).map vLabel) clips.length 1 0 ("vout"),
          .concat ((List.range clips.length).map aLabel) clips.length 0 1 ("aout"),
          scaleStage w h f ]) := by
  simp [compileFilter, buildTrims_ok clips hv 0]

lemma compileFilter_error (clips : List Clip) (w h f : JSVal)
    (hbad : ∃ c ∈ clips, clipOk c = false) :
    ∃ m, compileFilter clips w h f = .error m := by
  rcases buildTrims_error clips hbad 0 with ⟨m, hm⟩
  exact ⟨m, by simp [compileFilter, hm]⟩

/-- Claim C2 as stated is false: a clip whose end is the non-finite
number Infinity passes requireNumber (which only rejects non-numbers
and NaN) and passes the end <= start check, so the compiler produces a
graph for it instead of failing. -/
theorem C2_counterexample_infinite_end_compiles :
    isFiniteNumber (Clip.mk (.num 0) .posInf).«end» = false ∧
      ∃ prog, compileFilter [Clip.mk (.num 0) .posInf] .undef .undef .undef = .ok prog := by
  exact ⟨rfl, ⟨_, rfl⟩⟩

/-- Claim C2 amended: if any clip's start or end is not a number or is
NaN, or end <= start holds under the JavaScript comparison, then
filter-graph compilation fails with an error before any graph is
produced, for every such invalid clip regardless of its position; a
non-finite infinity that passes the end <= start comparison is accepted
(see the counterexample). -/
theorem C2_invalid_clip_fails_compilation (clips : List Clip) (w h f : JSVal)
    (hbad : ∃ c ∈ clips,
      passesRequireNumber c.start = false ∨ passesRequireNumber c.«end» = false ∨
        jsLe c.«end» c.start = true) :
    ∃ m, compileFilter clips w h f = .error m := by
  apply compileFilter_error
  rcases hbad with ⟨c, hc, hb⟩
  exact ⟨c, hc, (clipOk_false_iff c).mpr hb⟩

/-- Witness for C2: a NaN start in the second position of the clip list
fails compilation. -/
theorem C2_invalid_clip_fails_compilation_witness :
    (∃ c ∈ [Clip.mk (.num 0) (.num 5), Clip.mk .nan (.num 7)],
      passesRequireNumber c.start = false ∨ passesRequireNumber c.«end» = false ∨
        jsLe c.«end» c.start = true) ∧
      ∃ m, compileFilter [Clip.mk (.num 0) (.num 5), Clip.mk .nan (.num 7)]
        .undef .undef .undef = .error m :=
  ⟨by decide,
    C2_invalid_clip_fails_compilation _ .undef .undef .undef (by decide)⟩

lemma trimsOf_mem_index (clips : List Clip) :
    ∀ k x, x ∈ trimsOf clips k →
      ∃ i, k ≤ i ∧
        ((∃ s e p, x = FilterStage.trimV i s e p) ∨ (∃ s e p, x = FilterStage.trimA i s e p)) := by
  induction clips with
  | nil => intro k x hx; simp [trimsOf] at hx
  | cons c rest ih =>
      intro k x hx
      simp [trimsOf, trimPair] at hx
      rcases hx with h | h | h
      · exact ⟨k, le_refl k, Or.inl ⟨_, _, _, h⟩⟩
      · exact ⟨k, le_refl k, Or.inr ⟨_, _, _, h⟩⟩
      · rcases ih (k + 1) x h with ⟨i, hi, hx2⟩
        exact ⟨i, by omega, hx2⟩

lemma trimV_not_mem_of_lt (clips : List Clip) (k i : Nat) (s e : JSVal) (p : String)
    (h : i < k) : FilterStage.trimV i s e p ∉ trimsOf clips k := by
  intro hm
  rcases trimsOf_mem_index clips k _ hm with ⟨j, hj, hx | hx⟩ <;>
    rcases hx with ⟨s2, e2, p2, hx⟩ <;> simp_all <;> omega

lemma trimA_not_mem_of_lt (clips : List Clip) (k i : Nat) (s e : JSVal) (p : String)
    (h : i < k) : FilterStage.trimA i s e p ∉ trimsOf clips k := by
  intro hm
  rcases trimsOf_mem_index clips k _ hm with ⟨j, hj, hx | hx⟩ <;>
    rcases hx with ⟨s2, e2, p2, hx⟩ <;> simp_all <;> omega

lemma concat_not_mem_trimsOf (clips : List Clip) (k : Nat) (ins : List String)
    (n v a : Nat) (out : String) : FilterStage.concat ins n v a out ∉ trimsOf clips k := by
  intro hm
  rcases trimsOf_mem_index clips k _ hm with ⟨j, hj, hx | hx⟩ <;>
    rcases hx with ⟨s2, e2, p2, hx⟩ <;> simp_all

lemma countP_isTrimV_trimsOf (clips : List Clip) :
    ∀ k, List.countP isTrimV (trimsOf clips k) = clips.length := by
  induction clips with
  | nil => intro k; rfl
  | cons c rest ih =>
      intro k
      simp [trimsOf, trimPair, List.countP_cons, isTrimV, ih]

lemma countP_isTrimA_trimsOf (clips : List Clip) :
    ∀ k, List.countP isTrimA (trimsOf clips k) = clips.length := by
  induction clips with
  | nil => intro k; rfl
  | cons c rest ih =>
      intro k
      simp [trimsOf, trimPair, List.countP_cons, isTrimA, ih]

lemma countP_isConcat_trimsOf (clips : List Clip) (k : Nat) :
    List.countP isConcat (trimsOf clips k) = 0 := by
  rw [List.countP_eq_zero]
  intro x hx
  rcases trimsOf_mem_index clips k x hx with ⟨j, hj, hx2 | hx2⟩ <;>
    rcases hx2 with ⟨s2, e2, p2, hx2⟩ <;> subst hx2 <;> simp [isConcat]

lemma countP_isScalePadFps_trimsOf (clips : List Clip) (k : Nat) :
    List.countP isScalePadFps (trimsOf clips k) = 0 := by
  rw [List.countP_eq_zero]
  intro x hx
  rcases trimsOf_mem_index clips k x hx with ⟨j, hj, hx2 | hx2⟩ <;>
    rcases hx2 with ⟨s2, e2, p2, hx2⟩ <;> subst hx2 <;> simp [isScalePadFps]

lemma count_trimV_trimsOf (clips : List Clip) :
    ∀ (k j : Nat) (hj : j < clips.length),
      List.count
        (FilterStage.trimV (k + j) (clips.get ⟨j, hj⟩).start (clips.get ⟨j, hj⟩).«end» ("PTS-STARTPTS"))
        (trimsOf clips k) = 1 := by
  induction clips with
  | nil => intro k j hj; exact absurd hj (Nat.not_lt_zero j)
  | cons c rest ih =>
      intro k j hj
      cases j with
      | zero =>
          have hnot := trimV_not_mem_of_lt rest (k + 1) k c.start c.«end» ("PTS-STARTPTS") (by omega)
          simp [trimsOf, trimPair, List.count_cons, List.count_eq_zero_of_not_mem hnot]
      | succ j2 =>
          have hj2 : j2 < rest.length := by simpa using hj
          have hrec := ih (k + 1) j2 hj2
          simp only [List.get_eq_getElem] at hrec ⊢
          simp only [List.getElem_cons_succ]
          have harith : k + (j2 + 1) = (k + 1) + j2 := by omega
          rw [harith]
          simp only [trimsOf, List.count_append]
          have h0 : List.count
              (FilterStage.trimV ((k + 1) + j2) rest[j2].start rest[j2].«end» ("PTS-STARTPTS"))
              (trimPair k c) = 0 := by
            apply List.count_eq_zero_of_not_mem
            intro hm
            simp [trimPair] at hm
            omega
          rw [h0, hrec]

lemma count_trimA_trimsOf (clips : List Clip) :
    ∀ (k j : Nat) (hj : j < clips.length),
      List.count
        (FilterStage.trimA (k + j) (clips.get ⟨j, hj⟩).start (clips.get ⟨j, hj⟩).«end» ("PTS-STARTPTS"))
        (trimsOf clips k) = 1 := by
  induction clips with
  | nil => intro k j hj; exact absurd hj (Nat.not_lt_zero j)
  | cons c rest ih =>
      intro k j hj
      cases j with
      | zero =>
          have hnot := trimA_not_mem_of_lt rest (k + 1) k c.start c.«end» ("PTS-STARTPTS") (by omega)
          simp [trimsOf, trimPair, List.count_cons, List.count_eq_zero_of_not_mem hnot]
      | succ j2 =>
          have hj2 : j2 < rest.length := by simpa using hj
          have hrec := ih (k + 1) j2 hj2
          simp only [List.get_eq_getElem] at hrec ⊢
          simp only [List.getElem_cons_succ]
          have harith : k + (j2 + 1) = (k + 1) + j2 := by omega
          rw [harith]
          simp only [trimsOf, List.count_append]
          have h0 : List.count
              (FilterStage.trimA ((k + 1) + j2) rest[j2].start rest[j2].«end» ("PTS-STARTPTS"))
              (trimPair k c) = 0 := by
            apply List.count_eq_zero_of_not_mem
            intro hm
            simp [trimPair] at hm
            omega
          rw [h0, hrec]

/-- Claim C1: for every valid non-empty clip list the compiled program
is the trim pairs in clip order followed by the video-only and the
audio-only concat stages and the scale stage; it holds exactly one trim
pair per clip (the pair of clip i labelled with index i, both trims
resetting timestamps with PTS-STARTPTS), exactly one video concat of
the v labels into vout and one audio concat of the a labels into aout,
each with segment count equal to the clip count, and exactly two concat
stages in total. -/
theorem C1_trim_pairs_and_concat (clips : List Clip) (w h f : JSVal)
    (hv : ValidClips clips) (hne : clips ≠ []) : C1Prop clips w h f := by
  refine ⟨_, compileFilter_ok clips w h f hv, rfl, ?_, ?_, ?_, ?_, ?_, ?_⟩
  · simp [List.countP_cons, countP_isTrimV_trimsOf, isTrimV, scaleStage]
  · simp [List.countP_cons, countP_isTrimA_trimsOf, isTrimA, scaleStage]
  · intro i hi
    constructor
    · have hc := count_trimV_trimsOf clips 0 i hi
      simp only [Nat.zero_add, List.get_eq_getElem] at hc
      simp [List.count_cons, List.count_append, hc, scaleStage]
    · have hc := count_trimA_trimsOf clips 0 i hi
      simp only [Nat.zero_add, List.get_eq_getElem] at hc
      simp [List.count_cons, List.count_append, hc, scaleStage]
  · have hnot := concat_not_mem_trimsOf clips 0 ((List.range clips.length).map vLabel)
      clips.length 1 0 ("vout")
    simp [List.count_append, List.count_cons, List.count_eq_zero_of_not_mem hnot, scaleStage]
  · have hnot := concat_not_mem_trimsOf clips 0 ((List.range clips.length).map aLabel)
      clips.length 0 1 ("aout")
    simp [List.count_append, List.count_cons, List.count_eq_zero_of_not_mem hnot, scaleStage]
  · simp [List.countP_cons, countP_isConcat_trimsOf, isConcat, scaleStage]

/-- Witness for C1 at a concrete two-clip list. -/
theorem C1_trim_pairs_and_concat_witness :
    ValidClips [Clip.mk (.num 0) (.num 5), Clip.mk (.num 10) (.num 12)] ∧
      [Clip.mk (.num 0) (.num 5), Clip.mk (.num 10) (.num 12)] ≠ [] ∧
      C1Prop [Clip.mk (.num 0) (.num 5), Clip.mk (.num 10) (.num 12)] .undef .undef .undef :=
  ⟨by decide, by decide,
    C1_trim_pairs_and_concat _ .undef .undef .undef (by decide) (by decide)⟩

/-- Claim C5: the compiled program ends in exactly one scale-and-pad
stage applied to vout (aspect-preserving decrease scale, centered pad,
fps normalization into vfinal) with the || defaults 1920, 1080 and 30
for absent geometry, and nothing after the audio concat consumes the
audio stream. -/
theorem C5_single_scale_pad_stage (clips : List Clip) (w h f : JSVal)
    (hv : ValidClips clips) (hne : clips ≠ []) : C5Prop clips w h f := by
  refine ⟨_, compileFilter_ok clips w h f hv, rfl, ?_, ?_, rfl, rfl, rfl,
    fun hw => by rw [hw]; rfl, fun hh => by rw [hh]; rfl, fun hf => by rw [hf]; rfl⟩
  · simp [List.countP_cons, countP_isScalePadFps_trimsOf, isScalePadFps, scaleStage]
  · simp [List.getLast?_append]

/-- Witness for C5 at a concrete one-clip list. -/
theorem C5_single_scale_pad_stage_witness :
    ValidClips [Clip.mk (.num 1) (.num 3)] ∧
      [Clip.mk (.num 1) (.num 3)] ≠ [] ∧
      C5Prop [Clip.mk (.num 1) (.num 3)] .undef .undef .undef :=
  ⟨by decide, by decide,
    C5_single_scale_pad_stage _ .undef .undef .undef (by decide) (by decide)⟩

/-- Claim C10: the geometry defaults are applied to any falsy width,
height or fps (JavaScript ||), in particular to an explicit 0, which
compiles exactly as an absent property and yields the 1920, 1080 and
30 defaults. -/
theorem C10_falsy_geometry_defaults :
    (∀ (clips : List Clip) (w h f : JSVal), truthy w = false →
        compileFilter clips w h f = compileFilter clips .undef h f) ∧
    (∀ (clips : List Clip) (w h f : JSVal), truthy h = false →
        compileFilter clips w h f = compileFilter clips w .undef f) ∧
    (∀ (clips : List Clip) (w h f : JSVal), truthy f = false →
        compileFilter clips w h f = compileFilter clips w h .undef) ∧
    truthy (.num 0) = false ∧
    jsOr (.num 0) (.num 1920) = .num 1920 ∧
    jsOr (.num 0) (.num 1080) = .num 1080 ∧
    jsOr (.num 0) (.num 30) = .num 30 := by
  refine ⟨?_, ?_, ?_, by decide, by decide, by decide, by decide⟩ <;>
    · intro clips w h f hfalsy
      cases hb : buildTrims clips 0 <;>
        simp [compileFilter, hb, scaleStage, jsOr_falsy _ _ hfalsy, jsOr_undef]

/-- Witness for C10: width 0 compiles exactly as an absent width. -/
theorem C10_falsy_geometry_defaults_witness :
    truthy (JSVal.num 0) = false ∧
      compileFilter [Clip.mk (.num 0) (.num 5)] (.num 0) .undef .undef =
        compileFilter [Clip.mk (.num 0) (.num 5)] .undef .undef .undef :=
  ⟨by decide,
    C10_falsy_geometry_defaults.1 [Clip.mk (.num 0) (.num 5)] (.num 0) .undef .undef (by decide)⟩

lemma getJob_putJob_self (st : Store) (id : String) (r : JobRec) :
    getJob (putJob st id r) id = some r := by
  induction st with
  | nil => simp [putJob, getJob]
  | cons p rest ih =>
      obtain ⟨k, v⟩ := p
      by_cases hk : k = id <;> simp [putJob, getJob, hk, ih]

lemma getJob_setJob_self (st : Store) (id : String) (patch : JobRec) :
    getJob (setJob st id patch) id =
      some (mergeRec ((getJob st id).getD emptyRec) patch) := by
  simp [setJob, getJob_putJob_self]

/-- Claim C9: setJob is a patch-style merge.  Applying a patch to an
existing record stores exactly the merge, and the merge takes every
property named by the patch from the patch and every property absent
from the patch from the previous record, for all five properties. -/
theorem C9_setJob_patch_merge (st : Store) (id : String) (patch prev : JobRec)
    (hprev : getJob st id = some prev) :
    getJob (setJob st id patch) id = some (mergeRec prev patch) ∧
      (patch.status = none → (mergeRec prev patch).status = prev.status) ∧
      (∀ v, patch.status = some v → (mergeRec prev patch).status = some v) ∧
      (patch.progress = none → (mergeRec prev patch).progress = prev.progress) ∧
      (∀ v, patch.progress = some v → (mergeRec prev patch).progress = some v) ∧
      (patch.file = none → (mergeRec prev patch).file = prev.file) ∧
      (∀ v, patch.file = some v → (mergeRec prev patch).file = some v) ∧
      (patch.error = none → (mergeRec prev patch).error = prev.error) ∧
      (∀ v, patch.error = some v → (mergeRec prev patch).error = some v) ∧
      (patch.tmpDir = none → (mergeRec prev patch).tmpDir = prev.tmpDir) ∧
      (∀ v, patch.tmpDir = some v → (mergeRec prev patch).tmpDir = some v) := by
  refine ⟨by rw [getJob_setJob_self, hprev]; rfl, ?_, ?_, ?_, ?_, ?_, ?_, ?_, ?_, ?_, ?_⟩ <;>
    first
      | (intro hp; simp [mergeRec, hp, Option.orElse])
      | (intro v hp; simp [mergeRec, hp, Option.orElse])

/-- Witness for C9: the rendering patch over the initial record keeps
file and error and overwrites status and progress. -/
theorem C9_setJob_patch_merge_witness :
    getJob (putJob [] ("j") initialJob) ("j") = some initialJob ∧
      getJob (setJob (putJob [] ("j") initialJob) ("j") patchRendering) ("j") =
        some (mergeRec initialJob patchRendering) ∧
      (mergeRec initialJob patchRendering).file = initialJob.file ∧
      (mergeRec initialJob patchRendering).status = some .rendering :=
  ⟨by decide,
    (C9_setJob_patch_merge (putJob [] ("j") initialJob) ("j") patchRendering initialJob
      (by decide)).1,
    by decide, by decide⟩

/-- Claim C6: a submission whose sourceUrl is absent, whose clips is
not an array, or whose clips is empty is rejected synchronously with
the 400 client error; the store and the queue are untouched and no job
id is returned. -/
theorem C6_invalid_submission_rejected (jobId : String) (p : RenderRequest) (st : Store)
    (q : List (String × RenderRequest))
    (hbad : p.sourceUrl = .undef ∨ p.clips = none ∨ p.clips = some []) :
    handleRender jobId p st q =
      (.badRequest 400 ("Invalid payload. Need sourceUrl and non-empty clips[]"), st, q) := by
  have hinv : invalidPayload p = true := by
    rcases hbad with hu | hn | he
    · simp [invalidPayload, hu, truthy]
    · simp [invalidPayload, hn]
    · simp [invalidPayload, he]
  simp [handleRender, hinv]

/-- Witness for C6: submitting with empty clips is rejected and leaves
store and queue unchanged. -/
theorem C6_invalid_submission_rejected_witness :
    ((⟨.str ("https://x/video.mp4"), some [], .undef, .undef, .undef⟩ : RenderRequest).clips
        = some []) ∧
      handleRender ("j") ⟨.str ("https://x/video.mp4"), some [], .undef, .undef, .undef⟩ [] [] =
        (.badRequest 400 ("Invalid payload. Need sourceUrl and non-empty clips[]"), [], []) :=
  ⟨rfl,
    C6_invalid_submission_rejected ("j")
      ⟨.str ("https://x/video.mp4"), some [], .undef, .undef, .undef⟩ [] []
      (Or.inr (Or.inr rfl))⟩

/-- Claim C8 as stated is false: the download endpoint does not
distinguish an unknown job from a known but not-yet-completed job; both
receive the identical 404 Not ready response (src/server.js line 61
guards !job and !job.file together). -/
theorem C8_counterexample_not_found_equals_not_ready :
    handleDownload (putJob [] ("a") initialJob) ("b") =
        handleDownload (putJob [] ("a") initialJob) ("a") ∧
      handleDownload (putJob [] ("a") initialJob) ("b") = .err 404 ("Not ready") := by
  constructor <;> rfl

/-- Claim C8 amended: an unknown job id and a known job whose file is
not yet set receive the same signal, a 404 with body Not ready (the
two error kinds are not distinct); a job whose file is set (a completed
job) streams the file as attachment export.mp4. -/
theorem C8_download_responses (st : Store) (id : String) :
    (getJob st id = none → handleDownload st id = .err 404 ("Not ready")) ∧
      (∀ r, getJob st id = some r → fileTruthy r.file = false →
        handleDownload st id = .err 404 ("Not ready")) ∧
      (∀ r pth, getJob st id = some r → r.file = some (some pth) → pth ≠ "" →
        handleDownload st id = .fileDownload pth ("export.mp4")) := by
  refine ⟨?_, ?_, ?_⟩
  · intro hnone; simp [handleDownload, hnone]
  · intro r hr hf; simp [handleDownload, hr, hf]
  · intro r pth hr hfile hne
    simp [handleDownload, hr, hfile, fileTruthy, hne]

/-- Witness for C8: the three download responses at concrete stores. -/
theorem C8_download_responses_witness :
    handleDownload [] ("x") = .err 404 ("Not ready") ∧
      handleDownload (putJob [] ("a") initialJob) ("a") = .err 404 ("Not ready") ∧
      handleDownload
        (putJob [] ("a") (mergeRec initialJob (patchCompleted ("t/out.mp4") ("t")))) ("a") =
        .fileDownload ("t/out.mp4") ("export.mp4") :=
  ⟨(C8_download_responses [] ("x")).1 rfl,
    (C8_download_responses (putJob [] ("a") initialJob) ("a")).2.1 initialJob (by decide) rfl,
    (C8_download_responses
        (putJob [] ("a") (mergeRec initialJob (patchCompleted ("t/out.mp4") ("t")))) ("a")).2.2
      (mergeRec initialJob (patchCompleted ("t/out.mp4") ("t"))) ("t/out.mp4")
      (by decide) (by decide) (by decide)⟩

lemma getJob_foldl_setJob (id : String) :
    ∀ (ps : List JobRec) (st : Store) (r : JobRec), getJob st id = some r →
      getJob (ps.foldl (fun s p => setJob s id p) st) id = some (mergeAll r ps) := by
  intro ps
  induction ps with
  | nil => intro st r hsome; simpa [mergeAll] using hsome
  | cons p rest ih =>
      intro st r hsome
      have h2 : getJob (setJob st id p) id = some (mergeRec r p) := by
        rw [getJob_setJob_self, hsome]; rfl
      simpa [mergeAll, List.foldl] using ih (setJob st id p) (mergeRec r p) h2

lemma getJob_foldl_setJob_start (id : String) (ps : List JobRec) (st : Store)
    (hne : ps ≠ []) :
    getJob (ps.foldl (fun s p => setJob s id p) st) id =
      some (mergeAll ((getJob st id).getD emptyRec) ps) := by
  cases ps with
  | nil => cases hne rfl
  | cons p rest =>
      have h2 := getJob_setJob_self st id p
      simpa [mergeAll, List.foldl] using
        getJob_foldl_setJob id rest (setJob st id p) _ h2

/-- Claim C3: every run of a job walks the status machine forward.  The
observed status sequence of any run starts at queued, each consecutive
transition is either the next forward state or failed from a
non-terminal state, no state is visited twice, and the sequence ends in
a terminal state; failure traces from the downloading, preparing and
rendering phases and the full success trace are all realizable. -/
theorem C3_status_forward_order :
    (∀ (cfg : RenderRequest) (env : Env),
      List.Chain' stepAllowed (statusTrace cfg env) ∧
      (statusTrace cfg env).Nodup ∧
      (statusTrace cfg env).head? = some .queued ∧
      ∃ s, (statusTrace cfg env).getLast? = some s ∧ isTerminal s = true) ∧
    (∃ cfg env, statusTrace cfg env = [.queued, .downloading, .failed]) ∧
    (∃ cfg env, statusTrace cfg env = [.queued, .downloading, .preparing, .failed]) ∧
    (∃ cfg env, statusTrace cfg env =
      [.queued, .downloading, .preparing, .rendering, .failed]) ∧
    (∃ cfg env, statusTrace cfg env =
      [.queued, .downloading, .preparing, .rendering, .completed]) := by
  refine ⟨?_, ?_, ?_, ?_, ?_⟩
  · intro cfg env
    cases h1 : env.downloadResult with
    | error e =>
        simp [statusTrace, processTrace, h1, initialJob, patchDownloading, patchFailed]
        decide
    | ok u =>
        cases h2 : compileFilter (cfg.clips.getD []) cfg.width cfg.height cfg.fps with
        | error e =>
            simp [statusTrace, processTrace, h1, h2, initialJob, patchDownloading,
              patchPreparing, patchFailed]
            decide
        | ok prog =>
            cases h3 : env.renderResult with
            | error e =>
                simp [statusTrace, processTrace, h1, h2, h3, initialJob, patchDownloading,
                  patchPreparing, patchRendering, patchFailed]
                decide
            | ok u2 =>
                simp [statusTrace, processTrace, h1, h2, h3, initialJob, patchDownloading,
                  patchPreparing, patchRendering, patchCompleted]
                decide
  · exact ⟨⟨.undef, none, .undef, .undef, .undef⟩, ⟨"", .error ("x"), .ok ()⟩, by decide⟩
  · exact ⟨⟨.undef, some [Clip.mk .undef .undef], .undef, .undef, .undef⟩,
      ⟨"", .ok (), .ok ()⟩, by decide⟩
  · exact ⟨⟨.undef, some [Clip.mk (.num 0) (.num 1)], .undef, .undef, .undef⟩,
      ⟨"", .ok (), .error ("x")⟩, by decide⟩
  · exact ⟨⟨.undef, some [Clip.mk (.num 0) (.num 1)], .undef, .undef, .undef⟩,
      ⟨"", .ok (), .ok ()⟩, by decide⟩

/-- Claim C4: whenever the fetch, the clip validation or the render
engine fails, the run still terminates normally and leaves the job
record with status failed, progress 0 and a populated error string. -/
theorem C4_failures_caught (id : String) (cfg : RenderRequest) (env : Env) (st : Store)
    (hfail : exceptOk env.downloadResult = false ∨
      exceptOk (compileFilter (cfg.clips.getD []) cfg.width cfg.height cfg.fps) = false ∨
      exceptOk env.renderResult = false) :
    ∃ r, getJob (processJob id cfg env st) id = some r ∧
      r.status = some .failed ∧ r.progress = some 0 ∧ ∃ m, r.error = some (some m) := by
  cases h1 : env.downloadResult with
  | error e =>
      have hget := getJob_foldl_setJob_start id (processTrace cfg env) st
        (by simp [processTrace, h1])
      refine ⟨_, by simpa [processJob] using hget, ?_, ?_, ⟨jsErrorString e, ?_⟩⟩ <;>
        simp [processTrace, h1, mergeAll, mergeRec, patchDownloading, patchFailed,
          Option.orElse]
  | ok u =>
      cases h2 : compileFilter (cfg.clips.getD []) cfg.width cfg.height cfg.fps with
      | error e =>
          have hget := getJob_foldl_setJob_start id (processTrace cfg env) st
            (by simp [processTrace, h1])
          refine ⟨_, by simpa [processJob] using hget, ?_, ?_, ⟨jsErrorString e, ?_⟩⟩ <;>
            simp [processTrace, h1, h2, mergeAll, mergeRec, patchDownloading,
              patchPreparing, patchFailed, Option.orElse]
      | ok prog =>
          cases h3 : env.renderResult with
          | error e =>
              have hget := getJob_foldl_setJob_start id (processTrace cfg env) st
                (by simp [processTrace, h1])
              refine ⟨_, by simpa [processJob] using hget, ?_, ?_, ⟨jsErrorString e, ?_⟩⟩ <;>
                simp [processTrace, h1, h2, h3, mergeAll, mergeRec, patchDownloading,
                  patchPreparing, patchRendering, patchFailed, Option.orElse]
          | ok u2 =>
              rcases hfail with hf | hf | hf <;> simp [h1, h2, h3, exceptOk] at hf

/-- Witness for C4: a failed download leaves a failed record with
progress 0 and a populated error. -/
theorem C4_failures_caught_witness :
    (exceptOk (Except.error ("boom") : Except String Unit) = false ∨
      exceptOk (compileFilter (((none : Option (List Clip))).getD []) .undef .undef .undef)
          = false ∨
      exceptOk (Except.ok () : Except String Unit) = false) ∧
    ∃ r, getJob
        (processJob ("j") ⟨.str ("u"), none, .undef, .undef, .undef⟩
          ⟨"t", .error ("boom"), .ok ()⟩ []) ("j") = some r ∧
      r.status = some .failed ∧ r.progress = some 0 ∧ ∃ m, r.error = some (some m) :=
  ⟨Or.inl rfl,
    C4_failures_caught ("j") ⟨.str ("u"), none, .undef, .undef, .undef⟩
      ⟨"t", .error ("boom"), .ok ()⟩ [] (Or.inl rfl)⟩

lemma out_path_ne_empty (t : String) : (t ++ ("/out.mp4") : String) ≠ "" := by
  intro hcon
  have hlen := congrArg String.length hcon
  rw [String.length_append] at hlen
  have h8 : ("/out.mp4" : String).length = 8 := rfl
  have h0 : ("" : String).length = 0 := rfl
  omega

lemma reachable_fields (cfg : RenderRequest) (env : Env) (r : JobRec)
    (hr : reachableRec cfg env r) :
    r.status.isSome ∧ r.progress.isSome ∧ r.error.isSome ∧
      (fileTruthy r.file = true ↔ r.status = some .completed) := by
  unfold reachableRec at hr
  cases h1 : env.downloadResult with
  | error e =>
      simp [processTrace, h1, List.scanl, mergeRec, initialJob, patchDownloading,
        patchFailed, Option.orElse] at hr
      rcases hr with rfl | rfl | rfl <;> simp [fileTruthy]
  | ok u =>
      cases h2 : compileFilter (cfg.clips.getD []) cfg.width cfg.height cfg.fps with
      | error e =>
          simp [processTrace, h1, h2, List.scanl, mergeRec, initialJob, patchDownloading,
            patchPreparing, patchFailed, Option.orElse] at hr
          rcases hr with rfl | rfl | rfl | rfl <;> simp [fileTruthy]
      | ok prog =>
          cases h3 : env.renderResult with
          | error e =>
              simp [processTrace, h1, h2, h3, List.scanl, mergeRec, initialJob,
                patchDownloading, patchPreparing, patchRendering, patchFailed,
                Option.orElse] at hr
              rcases hr with rfl | rfl | rfl | rfl | rfl <;> simp [fileTruthy]
          | ok u2 =>
              simp [processTrace, h1, h2, h3, List.scanl, mergeRec, initialJob,
                patchDownloading, patchPreparing, patchRendering, patchCompleted,
                Option.orElse] at hr
              rcases hr with rfl | rfl | rfl | rfl | rfl <;>
                simp [fileTruthy, out_path_ne_empty]

/-- Claim C7: the status endpoint answers 404 Not found for an unknown
id; for a known job in any state its run can reach, it answers a
document with exactly the four fields status, progress, downloadUrl and
error, all backed by present record properties, with downloadUrl null
exactly as long as the job has not reached completed and non-null once
it has. -/
theorem C7_status_document :
    (∀ (st : Store) (id : String), getJob st id = none →
      handleStatus st id = .notFound 404 ("Not found")) ∧
    (∀ (st : Store) (id : String) (cfg : RenderRequest) (env : Env) (r : JobRec),
      getJob st id = some r → reachableRec cfg env r →
      ∃ du, handleStatus st id = .doc r.status r.progress du (r.error.getD none) ∧
        r.status.isSome = true ∧ r.progress.isSome = true ∧ r.error.isSome = true ∧
        (du = none ↔ r.status ≠ some .completed) ∧
        (r.status = some .completed → ∃ u, du = some u)) := by
  constructor
  · intro st id hnone; simp [handleStatus, hnone]
  · intro st id cfg env r hget hrch
    obtain ⟨hs, hp, he, hiff⟩ := reachable_fields cfg env r hrch
    refine ⟨if fileTruthy r.file then some ("/download/" ++ id) else none,
      by simp [handleStatus, hget], hs, hp, he, ?_, ?_⟩
    · cases hft : fileTruthy r.file with
      | true =>
          have hcomp := hiff.mp hft
          simp [hft, hcomp]
      | false =>
          have hnc : r.status ≠ some .completed := by
            intro hc; rw [hiff.mpr hc] at hft; cases hft
          simp [hft, hnc]
    · intro hc
      have hft : fileTruthy r.file = true := hiff.mpr hc
      exact ⟨"/download/" ++ id, by simp [hft]⟩

/-- Witness for C7: the unknown-id answer and the queued-record answer
with a null downloadUrl. -/
theorem C7_status_document_witness :
    handleStatus [] ("x") = .notFound 404 ("Not found") ∧
      ∃ du, handleStatus (putJob [] ("j") initialJob) ("j") =
          .doc initialJob.status initialJob.progress du (initialJob.error.getD none) ∧
        initialJob.status.isSome = true ∧ initialJob.progress.isSome = true ∧
        initialJob.error.isSome = true ∧
        (du = none ↔ initialJob.status ≠ some .completed) ∧
        (initialJob.status = some .completed → ∃ u, du = some u) :=
  ⟨C7_status_document.1 [] ("x") rfl,
    C7_status_document.2 (putJob [] ("j") initialJob) ("j")
      ⟨.undef, none, .undef, .undef, .undef⟩ ⟨"", .ok (), .ok ()⟩ initialJob
      (by decide) (by decide)⟩

end VideoRenderer
